import Mathlib

/-!
# Engine-room instrument pipeline (src/main.cpp)

A shallow embedding of the wiring script `src/main.cpp`: the two curve tables,
the subscription graph built by `setup()`, the Signal K paths of the sinks and
the bilge transform, together with the curve lookup and the moving average that
the script instantiates.  C++ `float` values are modelled by rationals, C++ `int`
by `Int`.
-/

set_option autoImplicit false

namespace Sensesp

/-! ## Curve tables -/

/-- One `CurveInterpolator::Sample(input, output)`. -/
structure Sample where
  input : ℚ
  output : ℚ
  deriving DecidableEq, Repr

/-- Modelled from the spec: the sample container of `CurveInterpolator` is not in
the source file; per the data model a `CurveTable` is an ordered list of
(input, output) pairs.  `clear_samples` empties it. -/
def clear_samples : List Sample := []

/-- Modelled from the spec: `add_sample` is not in the source file; the table is
kept here in `add_sample` call order. -/
def add_sample (t : List Sample) (s : Sample) : List Sample := t ++ [s]

/-- The constructor body of `TemperatureInterpreter` (main.cpp lines 43-54):
sender resistance in ohm to degrees Kelvin. -/
def TemperatureInterpreter : List Sample :=
  let t := clear_samples
  let t := add_sample t ⟨20, 393.15⟩
  let t := add_sample t ⟨30, 383.15⟩
  let t := add_sample t ⟨40, 373.15⟩
  let t := add_sample t ⟨55, 363.15⟩
  let t := add_sample t ⟨70, 353.15⟩
  let t := add_sample t ⟨100, 343.15⟩
  let t := add_sample t ⟨140, 333.15⟩
  let t := add_sample t ⟨200, 323.15⟩
  let t := add_sample t ⟨300, 317.15⟩
  let t := add_sample t ⟨400, 313.15⟩
  t

/-- The constructor body of `FuelInterpreter` (main.cpp lines 64-76):
RPM to fuel rate in cubic metres per second. -/
def FuelInterpreter : List Sample :=
  let t := clear_samples
  let t := add_sample t ⟨600, 0.0000000694⟩
  let t := add_sample t ⟨1000, 0.000000125⟩
  let t := add_sample t ⟨1500, 0.000000222⟩
  let t := add_sample t ⟨1800, 0.000000284⟩
  let t := add_sample t ⟨2000, 0.000000347⟩
  let t := add_sample t ⟨2200, 0.000000484⟩
  let t := add_sample t ⟨2400, 0.000000620⟩
  let t := add_sample t ⟨2600, 0.000000757⟩
  let t := add_sample t ⟨2800, 0.000000893⟩
  let t := add_sample t ⟨3000, 0.00000103⟩
  let t := add_sample t ⟨3200, 0.00000124⟩
  t

/-- The `CurveTable` invariant of the data model: at least two points, and every
input strictly less than the input of the next sample. -/
def CurveTableInvariant (t : List Sample) : Prop :=
  2 ≤ t.length ∧ t.Chain' (fun a b => a.input < b.input)

/-! ## Nodes and wiring of `setup()` -/

/-- The node objects constructed in `setup()`, one constructor per variable. -/
inductive Node where
  | fuel_level | fuel_sk_output
  | exhaust_temp | exhaust_linear | exhaust_sk_output
  | alternator_temp | alternator_linear | alternator_sk_output
  | oil_temp | oil_linear | oil_sk_output
  | coolant_temp | coolant_linear | coolant_sk_output
  | rpm_sensor | frequency_calibrate | rpm_moving_avg | rpm_sk_output
  | fuel_frequency | fuel_moving_avg | fuel_curve | fuel_flow_sk_output
  | engine_room_temp | engine_room_pressure | engine_room_humidity
  | temp_sk_output | pressure_sk_output | humidity_sk_output
  | analog_input | analog_voltage | voltage_divider | temp_curve
  | temp_calibrate | temp_moving_avg | engine_temp_sk_output
  | engine_temp_raw_sk_output
  | bilge | int_to_string_transform | bilge_sk_output | bilge_raw_sk_output
  deriving DecidableEq, Repr

/-- The subscriptions made so far: one (source, consumer) pair per `connect_to`
call, in call order. -/
abbrev Wiring := List (Node × Node)

/-- Modelled from the spec: `connect_to` is not in the source file; it
establishes a subscription from `source` to `consumer` (appended to the
subscriber list of the source) and returns the consumer, so that calls chain. -/
def connect_to (w : Wiring) (source consumer : Node) : Wiring × Node :=
  (w ++ [(source, consumer)], consumer)

/-- A chained statement `source->connect_to(c1)->connect_to(c2)->...`. -/
def connect_chain (w : Wiring) (source : Node) : List Node → Wiring
  | [] => w
  | c :: cs => connect_chain (connect_to w source c).1 (connect_to w source c).2 cs

open Node in
/-- The `connect_to` statements of `setup()`, in program order
(main.cpp lines 145, 173, 198, 223, 248, 280, 311, 340-342, 401, 402, 433, 434). -/
def setup_wiring : Wiring :=
  let w : Wiring := []
  let w := connect_chain w fuel_level [fuel_sk_output]
  let w := connect_chain w exhaust_temp [exhaust_linear, exhaust_sk_output]
  let w := connect_chain w alternator_temp [alternator_linear, alternator_sk_output]
  let w := connect_chain w oil_temp [oil_linear, oil_sk_output]
  let w := connect_chain w coolant_temp [coolant_linear, coolant_sk_output]
  let w := connect_chain w rpm_sensor [frequency_calibrate, rpm_moving_avg, rpm_sk_output]
  let w := connect_chain w rpm_sensor
    [fuel_frequency, fuel_moving_avg, fuel_curve, fuel_flow_sk_output]
  let w := connect_chain w engine_room_temp [temp_sk_output]
  let w := connect_chain w engine_room_pressure [pressure_sk_output]
  let w := connect_chain w engine_room_humidity [humidity_sk_output]
  let w := connect_chain w analog_input
    [analog_voltage, voltage_divider, temp_curve, temp_calibrate, temp_moving_avg,
      engine_temp_sk_output]
  let w := connect_chain w analog_input
    [analog_voltage, voltage_divider, engine_temp_raw_sk_output]
  let w := connect_chain w bilge [int_to_string_transform, bilge_sk_output]
  let w := connect_chain w bilge [bilge_raw_sk_output]
  w

/-- The edge relation of the subscription graph: `source` was connected to
`consumer` by some `connect_to` call of `setup()`. -/
def Subscribes (source consumer : Node) : Prop := (source, consumer) ∈ setup_wiring

/-- Modelled from the spec: sample propagation is not in the source file; a
value emitted by a node is pushed synchronously, depth-first, to each of its
subscriptions in turn.  The result lists every node that receives a value, once
per delivery, when `n` emits once.  `fuel` bounds the depth. -/
def deliveries (w : Wiring) : Nat → Node → List Node
  | 0, _ => []
  | fuel + 1, n =>
    ((w.filter (fun e => e.1 = n)).map
      (fun e => e.2 :: deliveries w fuel e.2)).flatten

/-- A position in the wiring order that every `connect_to` call of `setup()`
moves forward: producers 0, then one more per stage of the chain. -/
def Node.stage : Node → Nat
  | .fuel_level | .exhaust_temp | .alternator_temp | .oil_temp | .coolant_temp
  | .rpm_sensor | .engine_room_temp | .engine_room_pressure | .engine_room_humidity
  | .analog_input | .bilge => 0
  | .exhaust_linear | .alternator_linear | .oil_linear | .coolant_linear
  | .frequency_calibrate | .fuel_frequency | .analog_voltage
  | .int_to_string_transform => 1
  | .rpm_moving_avg | .fuel_moving_avg | .voltage_divider => 2
  | .fuel_curve | .temp_curve => 3
  | .temp_calibrate => 4
  | .temp_moving_avg => 5
  | _ => 6

/-! ## Sinks -/

open Node in
/-- The `SKOutput` constructions of `setup()`, in program order: the sink
variable and the Signal K path passed to its constructor. -/
def setup_sk_outputs : List (Node × String) :=
  [ (fuel_sk_output, "propulsion.fuelTank.level"),
    (exhaust_sk_output, "propulsion.engine.exhaustTemperature"),
    (alternator_sk_output, "electrical.alternator.temperature"),
    (oil_sk_output, "propulsion.engine.oilTemperature"),
    (coolant_sk_output, "propulsion.engine.coolantTemperature"),
    (rpm_sk_output, "propulsion.engine.revolutions"),
    (fuel_flow_sk_output, "propulsion.engine.fuel.rate"),
    (temp_sk_output, "environment.engineBay.temperature"),
    (pressure_sk_output, "environment.engineBay.pressure"),
    (humidity_sk_output, "environment.engineBay.relativeHumidity"),
    (engine_temp_sk_output, "propulsion.engine.temperature"),
    (engine_temp_raw_sk_output, "propulsion.engine.temperature.raw"),
    (bilge_sk_output, "notification.bilge"),
    (bilge_raw_sk_output, "notification.bilge.raw") ]

/-- The Signal K path strings of the sinks, in construction order. -/
def setup_sk_paths : List String := setup_sk_outputs.map Prod.snd

/-! ## Bilge transform -/

/-- The lambda `int_to_string_function` (main.cpp lines 410-417). -/
def int_to_string_function (input : Int) : String :=
  if input = 1 then "Water in bilge" else "Bilge clear"

/-! ## Curve lookup -/

/-- Linear interpolation between two neighbouring samples:
y_i + (x − x_i)/(x_{i+1} − x_i)·(y_{i+1} − y_i). -/
def interpolate (a b : Sample) (x : ℚ) : ℚ :=
  a.output + (x - a.input) / (b.input - a.input) * (b.output - a.output)

/-- The bracketing pair of `x`: the first neighbouring pair with
x_i ≤ x < x_{i+1}. -/
def bracket : List Sample → ℚ → Option (Sample × Sample)
  | a :: b :: rest, x =>
    if a.input ≤ x ∧ x < b.input then some (a, b) else bracket (b :: rest) x
  | _, _ => none

/-- Modelled from the spec: `CurveInterpolator` lookup is not in the source file;
if x ≤ first.input the result is first.output, if x ≥ last.input it is
last.output, otherwise the bracketing pair is located and interpolated.  A table
with fewer than two points fails (`none`). -/
def lookup (t : List Sample) (x : ℚ) : Option ℚ :=
  match t with
  | first :: second :: rest =>
    if x ≤ first.input then some first.output
    else if ((second :: rest).getLast (List.cons_ne_nil second rest)).input ≤ x then
      some ((second :: rest).getLast (List.cons_ne_nil second rest)).output
    else (bracket (first :: second :: rest) x).map (fun p => interpolate p.1 p.2 x)
  | _ => none

/-- The interpolated value on the segments after `a`, for `x` at or beyond
`a.input`: the segment that contains `x`, or the last output beyond the table. -/
def walk : Sample → List Sample → ℚ → ℚ
  | a, [], _ => a.output
  | a, b :: rest, x => if x < b.input then interpolate a b x else walk b rest x

/-! ## Moving average -/

/-- The `SlidingWindow` of the data model: fixed capacity, the retained samples
(oldest first; their number is the current count) and their running sum. -/
structure SlidingWindow where
  capacity : Nat
  samples : List ℚ
  sum : ℚ

/-- Evict the oldest retained sample if the window is at capacity. -/
def SlidingWindow.evict (w : SlidingWindow) : SlidingWindow :=
  if w.capacity ≤ w.samples.length then
    match w.samples with
    | [] => w
    | oldest :: rest => { w with samples := rest, sum := w.sum - oldest }
  else w

/-- Insert a new sample as the youngest. -/
def SlidingWindow.insert (w : SlidingWindow) (x : ℚ) : SlidingWindow :=
  { w with samples := w.samples ++ [x], sum := w.sum + x }

/-- Modelled from the spec: `MovingAverage` is not in the source file; it
maintains a `SlidingWindow` of capacity N and a scale. -/
structure MovingAverage where
  window : SlidingWindow
  scale : ℚ

/-- The constructor `MovingAverage(N, scale)`: an empty window. -/
def MovingAverage.new (n : Nat) (scale : ℚ) : MovingAverage :=
  { window := { capacity := n, samples := [], sum := 0 }, scale := scale }

/-- Modelled from the spec: on each input, evict the oldest retained sample if at
capacity, insert the new one, and emit (running sum / current count) · scale.
Returns the new state and the emitted value. -/
def MovingAverage.set (m : MovingAverage) (x : ℚ) : MovingAverage × ℚ :=
  let w := (m.window.evict).insert x
  ({ m with window := w }, w.sum / w.samples.length * m.scale)

/-- The outputs emitted for a sequence of inputs, one per input. -/
def MovingAverage.run (m : MovingAverage) : List ℚ → List ℚ
  | [] => []
  | x :: xs => (m.set x).2 :: MovingAverage.run (m.set x).1 xs

/-- The node `temp_moving_avg` (and likewise `fuel_moving_avg`) as constructed in
`setup()` (main.cpp lines 284 and 356): `MovingAverage(4, 1.0)`. -/
def temp_moving_avg : MovingAverage := MovingAverage.new 4 1.0

/-- The last `n` elements of a list (the whole list if it is shorter). -/
def lastN (n : Nat) (l : List ℚ) : List ℚ := l.drop (l.length - n)

/-- The arithmetic mean of a list of rationals. -/
def mean (l : List ℚ) : ℚ := l.sum / l.length

/-- The state reached by a moving average of capacity `n` and scale `s` after
the inputs `pre`. -/
def MovingAverage.After (n : Nat) (s : ℚ) (m : MovingAverage) (pre : List ℚ) : Prop :=
  m.window.capacity = n ∧ m.window.samples = lastN n pre ∧
    m.window.sum = m.window.samples.sum ∧ m.scale = s

/-! ## Theorems -/

/-- C1: both curve tables populated in the code satisfy the CurveTable invariant:
the TemperatureInterpreter list has 10 points and the FuelInterpreter list has 11
points, each has at least two points, and in add_sample order every input is
strictly less than the input of the next sample. -/
theorem C1_curve_tables_invariant :
    TemperatureInterpreter.length = 10 ∧ FuelInterpreter.length = 11 ∧
    CurveTableInvariant TemperatureInterpreter ∧ CurveTableInvariant FuelInterpreter := by
  refine ⟨rfl, rfl, ⟨by decide, ?_⟩, ⟨by decide, ?_⟩⟩
  · simp only [TemperatureInterpreter, add_sample, clear_samples, List.nil_append,
      List.cons_append, List.chain'_cons, List.chain'_singleton, and_true]
    norm_num
  · simp only [FuelInterpreter, add_sample, clear_samples, List.nil_append,
      List.cons_append, List.chain'_cons, List.chain'_singleton, and_true]
    norm_num

/-- Every `connect_to` call of `setup()` goes from a node to a node of a strictly
later stage. -/
theorem stage_lt_of_mem_wiring :
    ∀ e ∈ setup_wiring, e.1.stage < e.2.stage := by
  decide

/-- Along a non-empty path of subscriptions the stage strictly increases. -/
theorem stage_lt_of_path {a b : Node} (h : Relation.TransGen Subscribes a b) :
    a.stage < b.stage := by
  induction h with
  | single hab => exact stage_lt_of_mem_wiring _ hab
  | tail _ hbc ih => exact lt_trans ih (stage_lt_of_mem_wiring _ hbc)

/-- C2: the subscription graph established by the connect_to calls in setup() is
a DAG: there is no node from which a non-empty path of subscription edges leads
back to itself. -/
theorem C2_setup_wiring_acyclic :
    ∀ n : Node, ¬ Relation.TransGen Subscribes n n := by
  intro n h
  exact lt_irrefl _ (stage_lt_of_path h)

/-- C7: the 14 Signal K path strings passed to the SKOutput constructors in
setup() are pairwise different, and the 14 sinks are 14 different nodes, so no
two sinks publish under the same path. -/
theorem C7_sk_paths_distinct :
    setup_sk_paths.length = 14 ∧ setup_sk_paths.Nodup ∧
    (setup_sk_outputs.map Prod.fst).Nodup ∧
    ∀ a ∈ setup_sk_outputs, ∀ b ∈ setup_sk_outputs, a.2 = b.2 → a = b := by
  refine ⟨rfl, by decide, by decide, by decide⟩

/-- C8 (evaluation of the code): the connect_to calls of setup() connect the pair
(analog_input, analog_voltage) twice and the pair (analog_voltage,
voltage_divider) twice, so the call list is not duplicate-free, and one firing of
analog_input delivers four inputs to temp_moving_avg and four publishes to each of
the two engine-temperature sinks. -/
theorem C8_duplicate_subscriptions :
    setup_wiring.count (Node.analog_input, Node.analog_voltage) = 2 ∧
    setup_wiring.count (Node.analog_voltage, Node.voltage_divider) = 2 ∧
    ¬ setup_wiring.Nodup ∧
    (deliveries setup_wiring 40 Node.analog_input).count Node.temp_moving_avg = 4 ∧
    (deliveries setup_wiring 40 Node.analog_input).count Node.engine_temp_sk_output = 4 ∧
    (deliveries setup_wiring 40 Node.analog_input).count
      Node.engine_temp_raw_sk_output = 4 := by
  refine ⟨by decide, by decide, by decide, by decide, by decide, by decide⟩

/-- C10: int_to_string_function is total and two-valued: for every integer input
it returns "Water in bilge" if and only if the input is 1, returns "Bilge clear"
for every other integer, and never returns any other string. -/
theorem C10_int_to_string_two_valued (input : Int) :
    (int_to_string_function input = "Water in bilge" ↔ input = 1) ∧
    (int_to_string_function input = "Bilge clear" ↔ input ≠ 1) ∧
    (int_to_string_function input = "Water in bilge" ∨
      int_to_string_function input = "Bilge clear") := by
  unfold int_to_string_function
  by_cases h : input = 1
  · simp [h]
  · simp [h]

/-- C6: for the curve table {(20,393.15),(30,383.15)}, lookup(25) = 388.15
exactly, and the same result holds for the full TemperatureInterpreter table of
the code, whose first two samples are these points. -/
theorem C6_lookup_midpoint :
    lookup [⟨20, 393.15⟩, ⟨30, 383.15⟩] 25 = some 388.15 ∧
    TemperatureInterpreter.take 2 = [⟨20, 393.15⟩, ⟨30, 383.15⟩] ∧
    lookup TemperatureInterpreter 25 = some 388.15 := by
  refine ⟨?_, rfl, ?_⟩
  · norm_num [lookup, bracket, interpolate]
  · norm_num [TemperatureInterpreter, add_sample, clear_samples, lookup, bracket,
      interpolate]

/-! ### Moving average -/

/-- Eviction keeps the capacity. -/
theorem evict_capacity (w : SlidingWindow) : w.evict.capacity = w.capacity := by
  unfold SlidingWindow.evict
  split
  · cases w.samples <;> rfl
  · rfl

/-- Eviction drops the oldest sample exactly when the window is at capacity. -/
theorem evict_samples (w : SlidingWindow) :
    w.evict.samples = if w.capacity ≤ w.samples.length then w.samples.tail else w.samples := by
  unfold SlidingWindow.evict
  split
  · cases h : w.samples <;> simp [h]
  · rfl

/-- Eviction keeps the running sum equal to the sum of the retained samples. -/
theorem evict_sum (w : SlidingWindow) (h : w.sum = w.samples.sum) :
    w.evict.sum = w.evict.samples.sum := by
  unfold SlidingWindow.evict
  split
  · cases hs : w.samples with
    | nil => simp [h, hs]
    | cons a rest => simp [h, hs]
  · exact h

/-- Evict-then-insert on the last `n` inputs gives the last `n` of the extended
input sequence. -/
theorem lastN_append_singleton (n : Nat) (hn : 0 < n) (pre : List ℚ) (x : ℚ) :
    (if n ≤ (lastN n pre).length then (lastN n pre).tail else lastN n pre) ++ [x] =
      lastN n (pre ++ [x]) := by
  unfold lastN
  simp only [List.length_drop, List.length_append, List.length_singleton, List.tail_drop]
  by_cases h : n ≤ pre.length
  · have h1 : n ≤ pre.length - (pre.length - n) := by omega
    have h2 : pre.length + 1 - n = pre.length - n + 1 := by omega
    rw [if_pos h1, h2, List.drop_append_of_le_length (by omega)]
  · have h1 : ¬ n ≤ pre.length - (pre.length - n) := by omega
    have h2 : pre.length + 1 - n = 0 := by omega
    have h3 : pre.length - n = 0 := by omega
    rw [if_neg h1, h2, h3]
    rfl

/-- One input step: the state follows the inputs, and the emitted value is the
scaled mean of the last `n` inputs. -/
theorem set_after (n : Nat) (hn : 0 < n) (s : ℚ) (m : MovingAverage) (pre : List ℚ)
    (x : ℚ) (h : m.After n s pre) :
    (m.set x).1.After n s (pre ++ [x]) ∧ (m.set x).2 = s * mean (lastN n (pre ++ [x])) := by
  obtain ⟨hc, hs, hsum, hsc⟩ := h
  have hsamples : ((m.window.evict).insert x).samples = lastN n (pre ++ [x]) := by
    rw [← lastN_append_singleton n hn pre x]
    simp only [SlidingWindow.insert, evict_samples, hc, hs]
  have hsum2 : ((m.window.evict).insert x).sum = ((m.window.evict).insert x).samples.sum := by
    simp only [SlidingWindow.insert, List.sum_append, List.sum_singleton,
      evict_sum m.window hsum, List.sum_cons, List.sum_nil, add_zero]
  refine ⟨⟨?_, hsamples, hsum2, hsc⟩, ?_⟩
  · simp only [MovingAverage.set, SlidingWindow.insert, evict_capacity, hc]
  · simp only [MovingAverage.set, mean]
    rw [hsum2, hsamples, hsc, mul_comm]

/-- Every output of a run is the scaled mean of the last `n` inputs so far. -/
theorem run_after (n : Nat) (hn : 0 < n) (s : ℚ) (xs : List ℚ) :
    ∀ (m : MovingAverage) (pre : List ℚ), m.After n s pre →
      m.run xs = (List.range xs.length).map
        (fun k => s * mean (lastN n (pre ++ xs.take (k + 1)))) := by
  induction xs with
  | nil => intro m pre _; rfl
  | cons x xs ih =>
    intro m pre h
    obtain ⟨h1, h2⟩ := set_after n hn s m pre x h
    rw [MovingAverage.run, ih _ _ h1, h2, List.length_cons, List.range_succ_eq_map,
      List.map_cons, List.map_map]
    simp

/-- A freshly constructed moving average has seen no input. -/
theorem new_after (n : Nat) (s : ℚ) : (MovingAverage.new n s).After n s [] := by
  refine ⟨rfl, ?_, ?_, rfl⟩ <;> simp [MovingAverage.new, lastN]

/-- C5: for MovingAverage with capacity 4 and scale 1.0 as constructed in
setup(), every input yields one output, and the output for the (k+1)-th input is
the scale times the arithmetic mean of the last min(k+1, 4) inputs received so
far; in particular the inputs [1,2,3,4,5] yield [1, 1.5, 2, 2.5, 3.5]. -/
theorem C5_moving_average (xs : List ℚ) (k : Nat) (hk : k < xs.length) :
    (temp_moving_avg.run xs).length = xs.length ∧
    (temp_moving_avg.run xs)[k]? =
      some (1.0 * mean (lastN (min (k + 1) 4) (xs.take (k + 1)))) ∧
    temp_moving_avg.run [1, 2, 3, 4, 5] = [1, 1.5, 2, 2.5, 3.5] := by
  have hrun := run_after 4 (by decide) 1.0 xs _ [] (new_after 4 1.0)
  have hrun2 := run_after 4 (by decide) 1.0 [1, 2, 3, 4, 5] _ [] (new_after 4 1.0)
  refine ⟨?_, ?_, ?_⟩
  · unfold temp_moving_avg
    rw [hrun]
    simp
  · unfold temp_moving_avg
    rw [hrun]
    have hl : (xs.take (k + 1)).length = k + 1 := by
      rw [List.length_take]; omega
    have hd : (xs.take (k + 1)).length - min (k + 1) 4 = (xs.take (k + 1)).length - 4 := by
      rw [hl]; omega
    have hlast : lastN (min (k + 1) 4) (xs.take (k + 1)) = lastN 4 (xs.take (k + 1)) := by
      unfold lastN
      rw [hd]
    rw [hlast]
    simp [hk]
  · unfold temp_moving_avg
    rw [hrun2]
    norm_num [List.range, List.range.loop, lastN, mean]

/-- C5 (witness): the fifth output for the inputs [1,2,3,4,5]. -/
theorem C5_moving_average_witness :
    4 < ([1, 2, 3, 4, 5] : List ℚ).length ∧
    ((temp_moving_avg.run [1, 2, 3, 4, 5]).length = ([1, 2, 3, 4, 5] : List ℚ).length ∧
    (temp_moving_avg.run [1, 2, 3, 4, 5])[4]? =
      some (1.0 * mean (lastN (min (4 + 1) 4) (([1, 2, 3, 4, 5] : List ℚ).take (4 + 1)))) ∧
    temp_moving_avg.run [1, 2, 3, 4, 5] = [1, 1.5, 2, 2.5, 3.5]) :=
  ⟨by decide, C5_moving_average [1, 2, 3, 4, 5] 4 (by decide)⟩

/-! ### Curve lookup -/

/-- Interpolation at the left end of a segment gives the left output. -/
theorem interpolate_left (a b : Sample) : interpolate a b a.input = a.output := by
  simp [interpolate]

/-- Interpolation at the right end of a segment gives the right output. -/
theorem interpolate_right (a b : Sample) (hab : a.input < b.input) :
    interpolate a b b.input = b.output := by
  have hd : b.input - a.input ≠ 0 := by linarith
  simp [interpolate, div_self hd]

/-- On one segment interpolation is monotone in the direction `σ` of its outputs. -/
theorem interpolate_mono (σ : ℚ) (a b : Sample) (hab : a.input < b.input)
    (ho : σ * a.output ≤ σ * b.output) {x1 x2 : ℚ} (h : x1 ≤ x2) :
    σ * interpolate a b x1 ≤ σ * interpolate a b x2 := by
  have hd : 0 < b.input - a.input := by linarith
  have key : (x1 - a.input) / (b.input - a.input) ≤ (x2 - a.input) / (b.input - a.input) :=
    div_le_div_of_nonneg_right (by linarith) hd.le
  have h2 := mul_le_mul_of_nonneg_right key (sub_nonneg.2 ho)
  unfold interpolate
  linarith

/-- From `a.input` onwards the curve stays on the far side of `a.output`. -/
theorem walk_ge_head (σ x : ℚ) :
    ∀ (l : List Sample) (a : Sample),
      (a :: l).Chain' (fun p q => p.input < q.input) →
      (a :: l).Chain' (fun p q => σ * p.output ≤ σ * q.output) →
      a.input ≤ x → σ * a.output ≤ σ * walk a l x := by
  intro l
  induction l with
  | nil => intro a _ _ _; exact le_refl _
  | cons b rest ih =>
    intro a hs ho hx
    rw [List.chain'_cons] at hs ho
    unfold walk
    split
    · have := interpolate_mono σ a b hs.1 ho.1 hx
      rwa [interpolate_left] at this
    · exact le_trans ho.1 (ih b hs.2 ho.2 (by linarith))

/-- The curve beyond `a.input` is monotone in the direction `σ` of its outputs. -/
theorem walk_mono (σ : ℚ) {x1 x2 : ℚ} (h : x1 ≤ x2) :
    ∀ (l : List Sample) (a : Sample),
      (a :: l).Chain' (fun p q => p.input < q.input) →
      (a :: l).Chain' (fun p q => σ * p.output ≤ σ * q.output) →
      a.input ≤ x1 → σ * walk a l x1 ≤ σ * walk a l x2 := by
  intro l
  induction l with
  | nil => intro a _ _ _; exact le_refl _
  | cons b rest ih =>
    intro a hs ho hx
    rw [List.chain'_cons] at hs ho
    unfold walk
    by_cases h2 : x2 < b.input
    · rw [if_pos h2, if_pos (lt_of_le_of_lt h h2)]
      exact interpolate_mono σ a b hs.1 ho.1 h
    · rw [if_neg h2]
      by_cases h1 : x1 < b.input
      · rw [if_pos h1]
        have hr := interpolate_mono σ a b hs.1 ho.1 (le_of_lt h1)
        rw [interpolate_right a b hs.1] at hr
        exact le_trans hr (walk_ge_head σ x2 rest b hs.2 ho.2 (not_lt.1 h2))
      · rw [if_neg h1]
        exact ih b hs.2 ho.2 (not_lt.1 h1)

/-- In a table with increasing inputs the first input is at most the last. -/
theorem head_le_getLast (l : List Sample) :
    ∀ (a : Sample), (a :: l).Chain' (fun p q => p.input < q.input) →
      a.input ≤ ((a :: l).getLast (List.cons_ne_nil a l)).input := by
  induction l with
  | nil => intro a _; exact le_refl _
  | cons b rest ih =>
    intro a hs
    rw [List.chain'_cons] at hs
    rw [List.getLast_cons_cons]
    exact le_trans hs.1.le (ih b hs.2)

/-- At or beyond the last input the curve has the last output. -/
theorem walk_of_last_le (x : ℚ) (l : List Sample) :
    ∀ (a : Sample), (a :: l).Chain' (fun p q => p.input < q.input) →
      ((a :: l).getLast (List.cons_ne_nil a l)).input ≤ x →
      walk a l x = ((a :: l).getLast (List.cons_ne_nil a l)).output := by
  induction l with
  | nil => intro a _ _; rfl
  | cons b rest ih =>
    intro a hs hx
    rw [List.chain'_cons] at hs
    rw [List.getLast_cons_cons] at hx ⊢
    have hb : ¬ x < b.input := not_lt.2 (le_trans (head_le_getLast rest b hs.2) hx)
    unfold walk
    rw [if_neg hb]
    exact ih b hs.2 hx

/-- Strictly inside the table the bracketing pair exists and interpolating it
gives the curve value. -/
theorem bracket_eq_walk (x : ℚ) (l : List Sample) :
    ∀ (a : Sample), a.input ≤ x →
      x < ((a :: l).getLast (List.cons_ne_nil a l)).input →
      (bracket (a :: l) x).map (fun p => interpolate p.1 p.2 x) = some (walk a l x) := by
  induction l with
  | nil =>
    intro a h1 h2
    rw [List.getLast_singleton] at h2
    exact absurd h1 (not_le.2 h2)
  | cons b rest ih =>
    intro a h1 h2
    rw [List.getLast_cons_cons] at h2
    unfold bracket walk
    by_cases hb : x < b.input
    · rw [if_pos ⟨h1, hb⟩, if_pos hb]
      rfl
    · rw [if_neg (fun h => hb h.2), if_neg hb]
      exact ih b (not_lt.1 hb) h2

/-- The three cases of `lookup` on a table with at least two points. -/
theorem lookup_cons_cons (a b : Sample) (rest : List Sample) (x : ℚ) :
    lookup (a :: b :: rest) x =
      if x ≤ a.input then some a.output
      else if ((b :: rest).getLast (List.cons_ne_nil b rest)).input ≤ x then
        some ((b :: rest).getLast (List.cons_ne_nil b rest)).output
      else (bracket (a :: b :: rest) x).map (fun p => interpolate p.1 p.2 x) := rfl

/-- On a table with increasing inputs `lookup` succeeds: clamp below the first
input, the curve value otherwise. -/
theorem lookup_eq_walk (a b : Sample) (rest : List Sample)
    (hs : (a :: b :: rest).Chain' (fun p q => p.input < q.input)) (x : ℚ) :
    lookup (a :: b :: rest) x =
      some (if x ≤ a.input then a.output else walk a (b :: rest) x) := by
  rw [lookup_cons_cons]
  by_cases h1 : x ≤ a.input
  · rw [if_pos h1, if_pos h1]
  · rw [if_neg h1, if_neg h1]
    by_cases h2 : ((b :: rest).getLast (List.cons_ne_nil b rest)).input ≤ x
    · rw [if_pos h2]
      have := walk_of_last_le x (b :: rest) a hs (by rw [List.getLast_cons_cons]; exact h2)
      rw [this, List.getLast_cons_cons]
    · rw [if_neg h2]
      exact bracket_eq_walk x (b :: rest) a (not_le.1 h1).le
        (by rw [List.getLast_cons_cons]; exact not_le.1 h2)

/-- On a table with increasing inputs and outputs monotone in direction `σ`,
`lookup` succeeds and is monotone in direction `σ`. -/
theorem lookup_mono (σ : ℚ) (a b : Sample) (rest : List Sample)
    (hs : (a :: b :: rest).Chain' (fun p q => p.input < q.input))
    (ho : (a :: b :: rest).Chain' (fun p q => σ * p.output ≤ σ * q.output))
    (x1 x2 : ℚ) (h : x1 ≤ x2) :
    ∃ y1 y2, lookup (a :: b :: rest) x1 = some y1 ∧ lookup (a :: b :: rest) x2 = some y2 ∧
      σ * y1 ≤ σ * y2 := by
  refine ⟨_, _, lookup_eq_walk a b rest hs x1, lookup_eq_walk a b rest hs x2, ?_⟩
  by_cases h2 : x2 ≤ a.input
  · rw [if_pos h2, if_pos (le_trans h h2)]
  · rw [if_neg h2]
    by_cases h1 : x1 ≤ a.input
    · rw [if_pos h1]
      exact walk_ge_head σ x2 (b :: rest) a hs ho (not_le.1 h2).le
    · rw [if_neg h1]
      exact walk_mono σ h (b :: rest) a hs ho (not_le.1 h1).le

/-- On such a table every result lies between the first and the last output. -/
theorem lookup_bounds (σ : ℚ) (a b : Sample) (rest : List Sample)
    (hs : (a :: b :: rest).Chain' (fun p q => p.input < q.input))
    (ho : (a :: b :: rest).Chain' (fun p q => σ * p.output ≤ σ * q.output)) (x : ℚ) :
    ∃ y, lookup (a :: b :: rest) x = some y ∧ σ * a.output ≤ σ * y ∧
      σ * y ≤ σ * ((b :: rest).getLast (List.cons_ne_nil b rest)).output := by
  obtain ⟨y1, y, e1, e, hle⟩ := lookup_mono σ a b rest hs ho (min x a.input) x (min_le_left _ _)
  obtain ⟨y', y2, e', e2, hle2⟩ := lookup_mono σ a b rest hs ho x
    (max x ((b :: rest).getLast (List.cons_ne_nil b rest)).input) (le_max_left _ _)
  have f1 : lookup (a :: b :: rest) (min x a.input) = some a.output := by
    rw [lookup_cons_cons]
    rw [if_pos (min_le_right _ _)]
  have f2 : lookup (a :: b :: rest)
      (max x ((b :: rest).getLast (List.cons_ne_nil b rest)).input) =
      some ((b :: rest).getLast (List.cons_ne_nil b rest)).output := by
    rw [lookup_cons_cons]
    have hlast := head_le_getLast (b :: rest) a hs
    rw [List.getLast_cons_cons] at hlast
    rw [List.chain'_cons] at hs
    have : ¬ max x ((b :: rest).getLast (List.cons_ne_nil b rest)).input ≤ a.input := by
      have hb := head_le_getLast rest b hs.2
      have := le_max_right x ((b :: rest).getLast (List.cons_ne_nil b rest)).input
      have := hs.1
      intro hc
      linarith
    rw [if_neg this, if_pos (le_max_right _ _)]
  rw [f1] at e1
  rw [f2] at e2
  rw [e] at e'
  cases e1
  cases e2
  cases e'
  exact ⟨y, e, hle, hle2⟩

/-- The fuel table has strictly increasing inputs. -/
theorem fuel_inputs_sorted : FuelInterpreter.Chain' (fun p q => p.input < q.input) := by
  simp only [FuelInterpreter, add_sample, clear_samples, List.nil_append,
    List.cons_append, List.chain'_cons, List.chain'_singleton, and_true]
  norm_num

/-- The fuel table has non-decreasing outputs. -/
theorem fuel_outputs_rising :
    FuelInterpreter.Chain' (fun p q => (1 : ℚ) * p.output ≤ 1 * q.output) := by
  simp only [FuelInterpreter, add_sample, clear_samples, List.nil_append,
    List.cons_append, List.chain'_cons, List.chain'_singleton, and_true]
  norm_num

/-- The temperature table has strictly increasing inputs. -/
theorem temperature_inputs_sorted :
    TemperatureInterpreter.Chain' (fun p q => p.input < q.input) := by
  simp only [TemperatureInterpreter, add_sample, clear_samples, List.nil_append,
    List.cons_append, List.chain'_cons, List.chain'_singleton, and_true]
  norm_num

/-- The temperature table has non-increasing outputs. -/
theorem temperature_outputs_falling :
    TemperatureInterpreter.Chain' (fun p q => (-1 : ℚ) * p.output ≤ -1 * q.output) := by
  simp only [TemperatureInterpreter, add_sample, clear_samples, List.nil_append,
    List.cons_append, List.chain'_cons, List.chain'_singleton, and_true]
  norm_num

/-- C9: with lookup the clamp-at-the-ends piecewise-linear interpolation over the
table, lookup succeeds and is monotone on both tables of the code: for every
x1 <= x2 the FuelInterpreter lookup is non-decreasing and the
TemperatureInterpreter lookup is non-increasing; for every input the fuel-rate
output lies in [0.0000000694, 0.00000124] and the temperature output lies in
[313.15, 393.15]. -/
theorem C9_lookup_monotone :
    (∀ x1 x2 : ℚ, x1 ≤ x2 → ∃ y1 y2, lookup FuelInterpreter x1 = some y1 ∧
      lookup FuelInterpreter x2 = some y2 ∧ y1 ≤ y2) ∧
    (∀ x1 x2 : ℚ, x1 ≤ x2 → ∃ y1 y2, lookup TemperatureInterpreter x1 = some y1 ∧
      lookup TemperatureInterpreter x2 = some y2 ∧ y1 ≥ y2) ∧
    (∀ x : ℚ, ∃ y, lookup FuelInterpreter x = some y ∧
      0.0000000694 ≤ y ∧ y ≤ 0.00000124) ∧
    (∀ x : ℚ, ∃ y, lookup TemperatureInterpreter x = some y ∧
      313.15 ≤ y ∧ y ≤ 393.15) := by
  refine ⟨?_, ?_, ?_, ?_⟩
  · intro x1 x2 h
    obtain ⟨y1, y2, e1, e2, hle⟩ :=
      lookup_mono 1 _ _ _ fuel_inputs_sorted fuel_outputs_rising x1 x2 h
    exact ⟨y1, y2, e1, e2, by linarith⟩
  · intro x1 x2 h
    obtain ⟨y1, y2, e1, e2, hle⟩ :=
      lookup_mono (-1) _ _ _ temperature_inputs_sorted temperature_outputs_falling x1 x2 h
    exact ⟨y1, y2, e1, e2, by linarith⟩
  · intro x
    obtain ⟨y, e, h1, h2⟩ :=
      lookup_bounds 1 _ _ _ fuel_inputs_sorted fuel_outputs_rising x
    refine ⟨y, e, ?_, ?_⟩
    · norm_num at h1; linarith
    · norm_num [List.getLast] at h2; linarith
  · intro x
    obtain ⟨y, e, h1, h2⟩ :=
      lookup_bounds (-1) _ _ _ temperature_inputs_sorted temperature_outputs_falling x
    refine ⟨y, e, ?_, ?_⟩
    · norm_num [List.getLast] at h2; linarith
    · norm_num at h1; linarith

/-- C9 (witness): the fuel curve between 700 and 2100 RPM. -/
theorem C9_lookup_monotone_witness :
    (700 : ℚ) ≤ 2100 ∧ ∃ y1 y2, lookup FuelInterpreter 700 = some y1 ∧
      lookup FuelInterpreter 2100 = some y2 ∧ y1 ≤ y2 :=
  ⟨by norm_num, C9_lookup_monotone.1 700 2100 (by norm_num)⟩

end Sensesp
